import Mathlib

/-!
Verification of the asset-loading and GPU-resource-binding layer of the
harmony rendering engine, shallowly embedded from
`src/assets/asset_manager.rs` and `src/graphics/material/image.rs`.

HashMaps are embedded as association lists (`findA` / `insertA` mirror
`HashMap::get` / `HashMap::insert`, where `insert` replaces an existing
value).  GPU handles (textures, samplers, views, devices, encoders) carry
no observable data relevant to the claims and are elided; the
buffer-to-texture copy recorded by `create_texture` is kept as an explicit
record of its observable parameters (byte length, row stride, extent).
External decoders (the `image` crate) are represented by their decoded
results, handed to the functions that consume them.
-/

set_option autoImplicit false

/-- Lookup in an association list, mirroring `HashMap::get`. -/
def findA {κ α : Type} [DecidableEq κ] (k : κ) : List (κ × α) → Option α
  | [] => none
  | (k2, v) :: rest => if k2 = k then some v else findA k rest

/-- Insert-or-replace in an association list, mirroring `HashMap::insert`
(which overwrites any existing value for the key). -/
def insertA {κ α : Type} [DecidableEq κ] (k : κ) (v : α) : List (κ × α) → List (κ × α)
  | [] => [(k, v)]
  | (k2, v2) :: rest => if k2 = k then (k, v) :: rest else (k2, v2) :: insertA k v rest

theorem findA_insertA_self {κ α : Type} [DecidableEq κ] (k : κ) (v : α) :
    ∀ l : List (κ × α), findA k (insertA k v l) = some v := by
  intro l
  induction l with
  | nil => simp [findA, insertA]
  | cons p rest ih =>
    obtain ⟨pk, pv⟩ := p
    by_cases h : pk = k
    · subst h
      simp [findA, insertA]
    · simp [findA, insertA, h, ih]

theorem findA_insertA_ne {κ α : Type} [DecidableEq κ] (k k2 : κ) (v : α)
    (hne : k2 ≠ k) : ∀ l : List (κ × α), findA k2 (insertA k v l) = findA k2 l := by
  have hkk2 : ¬ k = k2 := fun h => hne h.symm
  intro l
  induction l with
  | nil => simp [findA, insertA, hkk2]
  | cons p rest ih =>
    obtain ⟨pk, pv⟩ := p
    by_cases h : pk = k
    · subst h
      simp [findA, insertA, hkk2]
    · by_cases h2 : pk = k2
      · simp [findA, insertA, h, h2, hne]
      · simp [findA, insertA, h, h2, ih]

/-! ## Model of `src/graphics/material/image.rs` -/

/-- Declared source-image format (`enum ImageFormat`). -/
inductive ImageFormat
  | SRGB
  | RGB
  | HDR16
  | HDR32
deriving DecidableEq, Repr

/-- GPU texture formats used by the image path (`wgpu::TextureFormat`,
restricted to the variants this code produces or tests against). -/
inductive TextureFormat
  | Rgba16Float
  | Rgba32Float
  | Rgba8Unorm
  | Rgba8UnormSrgb
deriving DecidableEq, Repr

/-- Conversion `impl Into<wgpu::TextureFormat> for ImageFormat`. -/
def ImageFormat.into : ImageFormat → TextureFormat
  | .HDR16 => .Rgba16Float
  | .HDR32 => .Rgba32Float
  | .RGB => .Rgba8Unorm
  | .SRGB => .Rgba8UnormSrgb

/-- Descriptor `struct ImageInfo { file, format }`. -/
structure ImageInfo where
  file : String
  format : ImageFormat
deriving DecidableEq, Repr

/-- IEEE-754 single-precision value, represented by its 32-bit pattern
(the HDR path only moves f32 values around; no float arithmetic occurs). -/
structure F32 where
  bits : Nat
deriving DecidableEq, Repr

/-- Bit pattern of the f32 literal `1.0`, the implicit alpha channel. -/
def F32.one : F32 := ⟨0x3F800000⟩

/-- Little-endian byte view of one f32, as produced by the raw-memory
reinterpretation `slice::from_raw_parts(ptr as *const u8, len * 4)`. -/
def F32.toBytes (x : F32) : List Nat :=
  [x.bits % 256, x.bits / 256 % 256, x.bits / 65536 % 256, x.bits / 16777216 % 256]

/-- One decoded HDR pixel (`image::Rgb<f32>`). -/
structure RgbF32 where
  r : F32
  g : F32
  b : F32
deriving DecidableEq, Repr

/-- One decoded 8-bit RGBA pixel of an `image::RgbaImage`. -/
structure Rgba8Pix where
  r : Nat
  g : Nat
  b : Nat
  a : Nat
deriving DecidableEq, Repr

/-- Decoded result of `image::load_from_memory(..).to_rgba()` (external
`image` crate): dimensions plus the pixel grid; the crate guarantees
`pixels.length = width * height`, taken as a hypothesis where needed. -/
structure RgbaImageM where
  width : Nat
  height : Nat
  pixels : List Rgba8Pix
deriving DecidableEq, Repr

/-- Metadata of an HDR container (`HdrDecoder::metadata()`). -/
structure HdrMeta where
  width : Nat
  height : Nat
deriving DecidableEq, Repr

/-- Decoded result of `HdrDecoder::read_image_hdr()` plus its metadata;
the crate guarantees `pixels.length = meta.width * meta.height`. -/
structure HdrDecoded where
  meta : HdrMeta
  pixels : List RgbF32
deriving DecidableEq, Repr

/-- Builder `struct ImageBuilder { bytes }`; the raw bytes are represented
by what the external decoders produce from them for each decode path. -/
structure ImageBuilder where
  rgba : RgbaImageM
  hdr : HdrDecoded
deriving DecidableEq, Repr

/-- Float buffer built by the HDR path of `ImageBuilder::build` and of
`Image::create_hdr_image`: `decoded.iter().flat_map(|p| vec![p[0], p[1], p[2], 1.0])`. -/
def hdr_image_data (pixels : List RgbF32) : List F32 :=
  pixels.flatMap (fun p => [p.r, p.g, p.b, F32.one])

/-- Byte buffer obtained by reinterpreting the float buffer's memory
(4 bytes per f32, little-endian). -/
def hdr_image_bytes (pixels : List RgbF32) : List Nat :=
  (hdr_image_data pixels).flatMap F32.toBytes

/-- Byte buffer `image.into_raw()` of an 8-bit RGBA image: 4 bytes per pixel. -/
def rgba_image_bytes (pixels : List Rgba8Pix) : List Nat :=
  pixels.flatMap (fun p => [p.r, p.g, p.b, p.a])

/-- Decode step of `ImageBuilder::build` (lines 96-122): dispatch on the
declared format, returning `(image_bytes, width, height)`. -/
def ImageBuilder.decode_step (b : ImageBuilder) (format : ImageFormat) :
    List Nat × Nat × Nat :=
  match format with
  | .HDR16 | .HDR32 => (hdr_image_bytes b.hdr.pixels, b.hdr.meta.width, b.hdr.meta.height)
  | .RGB | .SRGB => (rgba_image_bytes b.rgba.pixels, b.rgba.width, b.rgba.height)

/-- Texture extent (`wgpu::Extent3d`). -/
structure Extent3d where
  width : Nat
  height : Nat
  depth : Nat
deriving DecidableEq, Repr

/-- Observable parameters of the buffer-to-texture copy recorded by
`create_texture` (lines 35-92): staged byte count, row stride, extent. -/
structure TextureCopyCmd where
  bytes_len : Nat
  bytes_per_row : Nat
  extent : Extent3d
deriving DecidableEq, Repr

/-- Model of `create_texture`: the row stride is `4 * width` for the two
8-bit formats and `(4 * 4) * width` otherwise (lines 60-66). -/
def create_texture (width height : Nat) (format : TextureFormat) (bytes : List Nat) :
    TextureCopyCmd :=
  { bytes_len := bytes.length
    bytes_per_row :=
      if format = TextureFormat.Rgba8UnormSrgb ∨ format = TextureFormat.Rgba8Unorm then
        4 * width
      else
        4 * 4 * width
    extent := ⟨width, height, 1⟩ }

/-- Bytes-per-pixel figure named by the spec: 4 for the 8-bit formats,
16 for the float formats. -/
def bytes_per_pixel : ImageFormat → Nat
  | .SRGB | .RGB => 4
  | .HDR16 | .HDR32 => 16

/-! ## String helpers (suffix, substring, lowercasing), executable models of
the `str` operations used by `AssetManager::load`. -/

/-- Lowercase one character, as `char::to_lowercase` does for ASCII. -/
def lowerChar (c : Char) : Char :=
  if 65 ≤ c.toNat ∧ c.toNat ≤ 90 then Char.ofNat (c.toNat + 32) else c

/-- Model of `str::to_lowercase` (the file names involved are ASCII). -/
def lowerStr (s : String) : String := ⟨s.data.map lowerChar⟩

/-- Decide whether the first list is a prefix of the second. -/
def isPrefixL : List Char → List Char → Bool
  | [], _ => true
  | _ :: _, [] => false
  | a :: as, b :: bs => a = b && isPrefixL as bs

/-- Decide whether `needle` occurs as a contiguous sublist of the haystack. -/
def containsSubL (needle : List Char) : List Char → Bool
  | [] => isPrefixL needle []
  | c :: rest => isPrefixL needle (c :: rest) || containsSubL needle rest

/-- Model of `str::contains` on string slices. -/
def strContains (s sub : String) : Bool := containsSubL sub.data s.data

/-- Model of `str::ends_with`. -/
def strEndsWith (s sfx : String) : Bool := isPrefixL sfx.data.reverse s.data.reverse

/-! ## Model of `src/assets/asset_manager.rs` -/

/-- Material rendering mode (`enum MaterialKind { None, Unlit, PBR }`). -/
inductive MaterialKind
  | None
  | Unlit
  | PBR
deriving DecidableEq, Repr

/-- Opaque, hashable material identifier (`NewMaterialHandle`), extracted
from mesh data; it carries the declaration that `load_data` resolves. -/
structure NewMaterialHandle where
  id : Nat
  kind : MaterialKind
  image : String
deriving DecidableEq, Repr

/-- Resolved material (`NewMaterialData`): rendering kind plus the name of
the referenced image (further PBR parameters are not observed by any claim). -/
structure NewMaterialData where
  material_kind : MaterialKind
  main_image : String
deriving DecidableEq, Repr

/-- Compiled shader asset (contents irrelevant to the claims). -/
structure Shader where
  name : String
deriving DecidableEq, Repr

/-- Loaded font asset (contents irrelevant to the claims). -/
structure Font where
  name : String
deriving DecidableEq, Repr

/-- Cached image (`struct Image`): its descriptor, extent and resolved GPU
format; the GPU texture/sampler/view handles are elided. -/
structure Image where
  image_info : ImageInfo
  extent : Extent3d
  format : TextureFormat
deriving DecidableEq, Repr

/-- Loaded mesh; only the material-handle keys of `mesh.data` are observed
by the asset manager (`for (handle, submeshes) in mesh.data`). -/
structure Mesh where
  data : List NewMaterialHandle
deriving DecidableEq, Repr

/-- State of `struct AssetManager`.  `loadCount` is a ghost counter of
`load_data` invocations, the load-call counter the spec's memoization
property asks to verify with. -/
structure AssetManager where
  path : String
  shaders : List (String × Shader)
  fonts : List (String × Font)
  meshes : List (String × Mesh)
  materials : List (NewMaterialHandle × Option NewMaterialData)
  images : List (String × Image)
  loadCount : Nat
deriving DecidableEq, Repr

/-- Constructor `AssetManager::new`: every map starts empty. -/
def AssetManager.new (path : String) : AssetManager :=
  { path := path
    shaders := []
    fonts := []
    meshes := []
    materials := []
    images := []
    loadCount := 0 }

/-- Modelled from the spec: `NewMaterialHandle::load_data` is not under
`src/` (only its call sites are).  Per §4.4 it loads the material's declared
data, pulling referenced images from the image cache; the claims settled
here observe only that it was invoked and which data it yields, so the
declared data is read off the handle and the cache interaction is elided. -/
def load_data (h : NewMaterialHandle) (images : List (String × Image)) :
    NewMaterialData :=
  let _ := images
  { material_kind := h.kind, main_image := h.image }

/-- Resolver `AssetManager::get_material_or_load` (lines 132-150), embedded
with Rust's strict evaluation order:
1. `entry(handle).and_modify(..)` — when the entry is occupied by `None`,
   `load_data` runs and the entry becomes `Some`;
2. the argument of `or_insert(Some(Arc::new(handle.load_data(..))))` is
   evaluated unconditionally (Rust arguments are strict — `or_insert`, not
   `or_insert_with`), so `load_data` runs again on every call;
3. `or_insert` stores that value only when the entry is vacant, and the
   entry's value is returned. -/
def get_material_or_load (m : AssetManager) (h : NewMaterialHandle) :
    NewMaterialData × AssetManager :=
  let m1 : AssetManager :=
    match findA h m.materials with
    | some none =>
        { m with
          materials := insertA h (some (load_data h m.images)) m.materials
          loadCount := m.loadCount + 1 }
    | _ => m
  let d2 : NewMaterialData := load_data h m1.images
  let m2 : AssetManager := { m1 with loadCount := m1.loadCount + 1 }
  match findA h m2.materials with
  | some (some d) => (d, m2)
  | some none => (d2, m2)
  | none => (d2, { m2 with materials := insertA h (some d2) m2.materials })

/-- Handle registration performed by the `.gltf` branch of
`AssetManager::load` (lines 74-76): `self.materials.insert(handle, None)`
for every handle of the mesh — a plain `HashMap::insert`, which overwrites
whatever value the key already had. -/
def register_mesh_handles (m : AssetManager) (mesh : Mesh) : AssetManager :=
  mesh.data.foldl
    (fun acc h => { acc with materials := insertA h none acc.materials }) m

/-- Snapshot `AssetManager::get_loaded_materials` (lines 152-154): every
`Some` value of the materials map. -/
def get_loaded_materials (m : AssetManager) : List NewMaterialData :=
  m.materials.filterMap (fun p => p.2)

/-- Lookup `AssetManager::get_image_or_white` (lines 156-158).  The Rust
body is `self.images.get(key).unwrap_or(self.images.get("white").unwrap()).clone()`;
the argument of `unwrap_or` is evaluated unconditionally, so the `unwrap`
of the fallback lookup panics whenever "white" is absent, even when `key`
is present.  A panic is modelled as `none`; the method borrows `&self`, so
the state is returned unchanged. -/
def get_image_or_white (m : AssetManager) (key : String) :
    Option Image × AssetManager :=
  (match findA "white" m.images with
   | none => none
   | some w => some ((findA key m.images).getD w),
   m)

/-- Image branch of `AssetManager::load` (lines 81-99): `.png`/`.jpg` files
whose lowercased name contains "_normal" or "metallic" go through the
normal-map path (GPU format `Rgba8Unorm`, from `Image::create_normal_image`),
other `.png`/`.jpg` files through the color path (`Rgba8UnormSrgb`, from
`Image::create_color_image`), and `.hdr` files through the HDR path
(`Rgba32Float`, from `Image::create_hdr_image`).  The decoded extent is
supplied by the external decoder; `image_info` is built as `Image::new`
does (file name plus a constant `ImageFormat::SRGB`, lines 224-227). -/
def load_image_file (file_name : String) (ext : Extent3d) : Option Image :=
  if strEndsWith file_name ".png" || strEndsWith file_name ".jpg" then
    if strContains (lowerStr file_name) "_normal" ||
        strContains (lowerStr file_name) "metallic" then
      some { image_info := ⟨file_name, ImageFormat.SRGB⟩
             extent := ext
             format := TextureFormat.Rgba8Unorm }
    else
      some { image_info := ⟨file_name, ImageFormat.SRGB⟩
             extent := ext
             format := TextureFormat.Rgba8UnormSrgb }
  else if strEndsWith file_name ".hdr" then
    some { image_info := ⟨file_name, ImageFormat.SRGB⟩
           extent := ext
           format := TextureFormat.Rgba32Float }
  else none

/-- Cache insertion performed by `AssetManager::load` for one discovered
image file: `self.images.insert(image.name, image)`, the image keyed by its
file name. -/
def load_insert_image (m : AssetManager) (file_name : String) (ext : Extent3d) :
    AssetManager :=
  match load_image_file file_name ext with
  | none => m
  | some img => { m with images := insertA file_name img m.images }

/-! ## Model of the external `GPUResourceManager` used by `load_materials` -/

/-- Bind group produced by `create_bind_group`: the resolved material data
bound against a named layout (GPU descriptor contents elided). -/
structure BindGroup where
  data : NewMaterialData
  layout : String
deriving DecidableEq, Repr

/-- Modelled from the spec: `GPUResourceManager` is external to this core
(§6).  It owns named bind-group layouts and a multi-bind-group registry;
`multi_bind_groups` records every `add_multi_bind_group(name, group, index)`
registration in call order. -/
structure GPUResourceManager where
  bind_group_layouts : List String
  multi_bind_groups : List (String × BindGroup × Nat)
deriving DecidableEq, Repr

/-- Modelled from the spec: `get_bind_group_layout(name)` yields the named
layout when registered, else `None` (§6). -/
def get_bind_group_layout (rm : GPUResourceManager) (name : String) :
    Option String :=
  if name ∈ rm.bind_group_layouts then some name else none

/-- Modelled from the spec: `add_multi_bind_group(group_name, group, index)`
registers a bind group into the named, indexed table (§6). -/
def add_multi_bind_group (rm : GPUResourceManager) (name : String)
    (bg : BindGroup) (index : Nat) : GPUResourceManager :=
  { rm with multi_bind_groups := rm.multi_bind_groups ++ [(name, bg, index)] }

/-- Modelled from the spec: `NewMaterialData::create_bind_group` builds a
bind group from the resolved data and a layout (§4.5); its GPU contents are
opaque to the claims. -/
def create_bind_group (d : NewMaterialData) (layout : String) : BindGroup :=
  { data := d, layout := layout }

/-- Per-material body of the `load_materials` loop (lines 193-221).
`current_index` is initialized to `0` before the loop and never changed, so
the literal `0` is what every registration receives.  `Unlit` materials
build a bind group that is dropped; `PBR` materials build one and register
it under "pbr"; a missing layout makes the `.unwrap()` panic (`none`). -/
def load_materials_step (d : NewMaterialData) (rm : GPUResourceManager) :
    Option GPUResourceManager :=
  match d.material_kind with
  | MaterialKind.Unlit =>
      match get_bind_group_layout rm "unlit_material" with
      | none => none
      | some l =>
          let _ := create_bind_group d l
          some rm
  | MaterialKind.PBR =>
      match get_bind_group_layout rm "pbr_material" with
      | none => none
      | some l => some (add_multi_bind_group rm "pbr" (create_bind_group d l) 0)
  | MaterialKind.None => some rm

/-- Pass `AssetManager::load_materials` (lines 188-222): fold the loop body
over the loaded materials. -/
def load_materials (m : AssetManager) (rm : GPUResourceManager) :
    Option GPUResourceManager :=
  (get_loaded_materials m).foldl (fun acc d => acc.bind (load_materials_step d))
    (some rm)

/-! ## Model of the RON text layer used by `ImageInfo`

Modelled from the spec: `ImageInfo` derives `Serialize`/`Deserialize` and
`ImageInfo::decode` (image.rs lines 316-321) parses via the external `ron`
crate (§6: "a structured, human-readable key-value text format").  The
derived impls write the two fields in declaration order; a RON struct value
prints as `(file:"<escaped path>",format:<Variant>)`, with quote and
backslash escaped by a backslash inside string literals. -/

/-- Double-quote character of the RON string syntax. -/
def quoteChar : Char := Char.ofNat 34

/-- Backslash character of the RON escape syntax. -/
def backslashChar : Char := Char.ofNat 92

/-- Escape a string body for a RON string literal. -/
def escapeChars : List Char → List Char
  | [] => []
  | c :: rest =>
      if c = quoteChar ∨ c = backslashChar then
        backslashChar :: c :: escapeChars rest
      else
        c :: escapeChars rest

/-- Scan a RON string literal body up to its closing quote, undoing
escapes; returns the decoded body and the remaining input. -/
def scanStr : List Char → Option (List Char × List Char)
  | [] => none
  | c :: rest =>
      if c = backslashChar then
        match rest with
        | [] => none
        | c2 :: rest2 => (scanStr rest2).map (fun p => (c2 :: p.1, p.2))
      else if c = quoteChar then
        some ([], rest)
      else
        (scanStr rest).map (fun p => (c :: p.1, p.2))

/-- Consume an expected literal prefix of the input. -/
def dropPrefixL : List Char → List Char → Option (List Char)
  | [], s => some s
  | _ :: _, [] => none
  | p :: ps, c :: cs => if p = c then dropPrefixL ps cs else none

/-- Variant name of an `ImageFormat`, as the derived `Serialize` emits it. -/
def formatName : ImageFormat → String
  | .SRGB => "SRGB"
  | .RGB => "RGB"
  | .HDR16 => "HDR16"
  | .HDR32 => "HDR32"

/-- Parse the tail `<Variant>)` of the serialized record. -/
def parseFormatTail (s : List Char) : Option ImageFormat :=
  if s = ("SRGB)").data then some ImageFormat.SRGB
  else if s = ("RGB)").data then some ImageFormat.RGB
  else if s = ("HDR16)").data then some ImageFormat.HDR16
  else if s = ("HDR32)").data then some ImageFormat.HDR32
  else none

/-- Serialize an `ImageInfo` to RON text. -/
def encodeImageInfo (i : ImageInfo) : List Char :=
  ("(file:").data ++ [quoteChar] ++ escapeChars i.file.data ++ [quoteChar]
    ++ (",format:").data ++ (formatName i.format).data ++ [')']

/-- Deserialize RON text into an `ImageInfo` (`ImageInfo::decode`). -/
def decodeImageInfo (s : List Char) : Option ImageInfo :=
  match dropPrefixL (("(file:").data ++ [quoteChar]) s with
  | none => none
  | some r1 =>
      match scanStr r1 with
      | none => none
      | some (f, r2) =>
          match dropPrefixL ((",format:").data) r2 with
          | none => none
          | some r3 =>
              match parseFormatTail r3 with
              | none => none
              | some fmt => some ⟨⟨f⟩, fmt⟩

/-! ## Concrete fixtures used by counterexamples and witnesses -/

/-- Sample resolved material data. -/
def dRock : NewMaterialData := ⟨MaterialKind.PBR, "rock"⟩

/-- Sample material handle declaring `dRock`. -/
def hRock : NewMaterialHandle := ⟨7, MaterialKind.PBR, "rock"⟩

/-- Second sample handle, distinct from `hRock`. -/
def hMoss : NewMaterialHandle := ⟨8, MaterialKind.PBR, "moss"⟩

/-- Manager whose materials map holds `hRock` in state `Registered(None)`. -/
def mRegistered : AssetManager :=
  { AssetManager.new "assets" with materials := [(hRock, none)] }

/-- Manager whose materials map holds `hRock` in state `Resolved`. -/
def mResolved : AssetManager :=
  { AssetManager.new "assets" with materials := [(hRock, some dRock)] }

/-- Sample cached image stored under "rock". -/
def imgRock : Image :=
  { image_info := ⟨"rock", ImageFormat.SRGB⟩
    extent := ⟨4, 4, 1⟩
    format := TextureFormat.Rgba8UnormSrgb }

/-- Sample cached image stored under "white". -/
def imgWhite : Image :=
  { image_info := ⟨"white", ImageFormat.SRGB⟩
    extent := ⟨1, 1, 1⟩
    format := TextureFormat.Rgba8UnormSrgb }

/-- Manager whose image cache holds "rock" but no "white" fallback. -/
def mNoWhite : AssetManager :=
  { AssetManager.new "assets" with images := [("rock", imgRock)] }

/-- Manager whose image cache holds both "white" and "rock". -/
def mWithWhite : AssetManager :=
  { AssetManager.new "assets" with
    images := [("white", imgWhite), ("rock", imgRock)] }

/-- Second resolved PBR material, distinct from `dRock`. -/
def dMoss : NewMaterialData := ⟨MaterialKind.PBR, "moss"⟩

/-- Manager holding two resolved PBR materials. -/
def mTwoPBR : AssetManager :=
  { AssetManager.new "assets" with
    materials := [(hRock, some dRock), (hMoss, some dMoss)] }

/-- Resource manager with both material layouts registered and an empty
multi-bind-group registry. -/
def rmReady : GPUResourceManager :=
  { bind_group_layouts := ["unlit_material", "pbr_material"]
    multi_bind_groups := [] }

/-- Sample decoded inputs: a 2-by-1 RGBA image and a 1-by-1 HDR image. -/
def bSample : ImageBuilder :=
  { rgba := { width := 2, height := 1
              pixels := [⟨1, 2, 3, 4⟩, ⟨5, 6, 7, 8⟩] }
    hdr := { meta := ⟨1, 1⟩
             pixels := [⟨⟨10⟩, ⟨20⟩, ⟨30⟩⟩] } }

/-- Sample image descriptor for the RGB decode path. -/
def infoRGB : ImageInfo := ⟨"rock.png", ImageFormat.RGB⟩

/-! ## Helper lemmas -/

theorem hdr_image_data_length (l : List RgbF32) :
    (hdr_image_data l).length = 4 * l.length := by
  induction l with
  | nil => rfl
  | cons p t ih =>
    rw [show hdr_image_data (p :: t)
          = p.r :: p.g :: p.b :: F32.one :: hdr_image_data t from rfl]
    simp only [List.length_cons, ih]
    omega

theorem flatMap_toBytes_length (l : List F32) :
    (l.flatMap F32.toBytes).length = 4 * l.length := by
  induction l with
  | nil => rfl
  | cons x t ih =>
    simp only [List.flatMap_cons, List.length_append, ih, F32.toBytes]
    simp
    omega

theorem hdr_image_bytes_length (l : List RgbF32) :
    (hdr_image_bytes l).length = 16 * l.length := by
  rw [hdr_image_bytes, flatMap_toBytes_length, hdr_image_data_length]
  ring

theorem rgba_image_bytes_length (l : List Rgba8Pix) :
    (rgba_image_bytes l).length = 4 * l.length := by
  induction l with
  | nil => rfl
  | cons p t ih =>
    simp only [rgba_image_bytes, List.flatMap_cons, List.length_append] at ih ⊢
    simp [ih]
    omega

theorem hdr_get_r (l : List RgbF32) :
    ∀ i : Nat, (hdr_image_data l).get? (4 * i) = (l.get? i).map RgbF32.r := by
  induction l with
  | nil => intro i; rfl
  | cons p t ih =>
    intro i
    cases i with
    | zero => rfl
    | succ j => exact ih j

theorem hdr_get_g (l : List RgbF32) :
    ∀ i : Nat, (hdr_image_data l).get? (4 * i + 1) = (l.get? i).map RgbF32.g := by
  induction l with
  | nil => intro i; rfl
  | cons p t ih =>
    intro i
    cases i with
    | zero => rfl
    | succ j => exact ih j

theorem hdr_get_b (l : List RgbF32) :
    ∀ i : Nat, (hdr_image_data l).get? (4 * i + 2) = (l.get? i).map RgbF32.b := by
  induction l with
  | nil => intro i; rfl
  | cons p t ih =>
    intro i
    cases i with
    | zero => rfl
    | succ j => exact ih j

theorem hdr_get_a (l : List RgbF32) :
    ∀ i : Nat,
      (hdr_image_data l).get? (4 * i + 3) = (l.get? i).map (fun _ => F32.one) := by
  induction l with
  | nil => intro i; rfl
  | cons p t ih =>
    intro i
    cases i with
    | zero => rfl
    | succ j => exact ih j

theorem dropPrefixL_append (p : List Char) :
    ∀ s : List Char, dropPrefixL p (p ++ s) = some s := by
  induction p with
  | nil => intro s; rfl
  | cons c cs ih => intro s; simp [dropPrefixL, ih]

theorem scanStr_escape (f : List Char) :
    ∀ rest : List Char,
      scanStr (escapeChars f ++ quoteChar :: rest) = some (f, rest) := by
  have hqb : ¬ quoteChar = backslashChar := by decide
  induction f with
  | nil =>
    intro rest
    rw [escapeChars, List.nil_append, scanStr.eq_def]
    simp [hqb]
  | cons c cs ih =>
    intro rest
    by_cases hc : c = quoteChar ∨ c = backslashChar
    · rw [escapeChars]
      simp only [hc, if_pos]
      rw [List.cons_append, List.cons_append, scanStr.eq_def]
      simp [ih]
    · push_neg at hc
      rw [escapeChars]
      simp only [hc.1, hc.2, or_self, if_neg, not_false_iff]
      rw [List.cons_append, scanStr.eq_def]
      simp [hc.1, hc.2, ih]

theorem parseFormatTail_name (fmt : ImageFormat) :
    parseFormatTail ((formatName fmt).data ++ [')']) = some fmt := by
  cases fmt <;> decide

/-! ## Claims -/

/-- C1: the claim says `load_data` is invoked at most once per handle over
any sequence of `get_material_or_load` calls.  The code violates it:
`or_insert`'s argument is evaluated unconditionally, so resolving the
registered handle `hRock` once already invokes `load_data` twice (the
counter reaches 2), and every further call on the now-resolved handle
invokes it again (counter 3) even though the cached data is returned. -/
theorem C1_load_data_reinvoked_on_every_resolve :
    ((get_material_or_load mRegistered hRock).2).loadCount = 2 ∧
    findA hRock ((get_material_or_load mRegistered hRock).2).materials
      = some (some dRock) ∧
    (get_material_or_load
        ((get_material_or_load mRegistered hRock).2) hRock).1 = dRock ∧
    ((get_material_or_load
        ((get_material_or_load mRegistered hRock).2) hRock).2).loadCount = 3 := by
  decide

/-- C2: the claim says each PBR material of one `load_materials` pass is
registered in the "pbr" table at an index equal to its sequential position,
making indices pairwise distinct.  The code violates it: `current_index`
is initialized to 0 and never incremented, so a pass over two resolved PBR
materials registers both at index 0. -/
theorem C2_pbr_materials_all_registered_at_index_zero :
    load_materials mTwoPBR rmReady =
      some { bind_group_layouts := ["unlit_material", "pbr_material"]
             multi_bind_groups :=
               [("pbr", ⟨dRock, "pbr_material"⟩, 0),
                ("pbr", ⟨dMoss, "pbr_material"⟩, 0)] } := by
  decide

/-- C3 (counterexample): the claim says that for every present key K,
`get_image_or_white(K)` returns the image stored under K.  In a cache
holding "rock" but no "white" fallback, the call panics instead (modelled
as `none`), because `unwrap_or`'s argument — the unwrapped "white" lookup —
is evaluated unconditionally. -/
theorem C3_counterexample_present_key_panics_without_white :
    findA "rock" mNoWhite.images = some imgRock ∧
    (get_image_or_white mNoWhite "rock").1 = none := by
  decide

/-- C3 (amended): for every absent key the lookup agrees with a direct
lookup of "white"; for every present key it returns the stored image
provided the "white" fallback is registered. -/
theorem C3_get_image_or_white_amended (m : AssetManager) (k : String) :
    (findA k m.images = none →
      (get_image_or_white m k).1 = findA "white" m.images) ∧
    (∀ img w : Image, findA k m.images = some img →
      findA "white" m.images = some w →
      (get_image_or_white m k).1 = some img) := by
  constructor
  · intro hk
    cases hw : findA "white" m.images <;> simp [get_image_or_white, hw, hk]
  · intro img w hk hw
    simp [get_image_or_white, hw, hk]

/-- C3 (witness): the amended statement evaluated on a cache holding both
"white" and "rock". -/
theorem C3_witness :
    (get_image_or_white mWithWhite "missing").1 = findA "white" mWithWhite.images ∧
    (get_image_or_white mWithWhite "rock").1 = some imgRock :=
  ⟨(C3_get_image_or_white_amended mWithWhite "missing").1 (by decide),
   (C3_get_image_or_white_amended mWithWhite "rock").2 imgRock imgWhite
     (by decide) (by decide)⟩

/-- C4 (counterexample): the claim says no operation — including handle
registration during `load` — ever moves a `Resolved` entry back to `None`.
The `.gltf` branch of `load` uses plain `HashMap::insert(handle, None)`,
which overwrites: registering the already-resolved `hRock` resets it. -/
theorem C4_counterexample_register_resets_resolved :
    findA hRock mResolved.materials = some (some dRock) ∧
    findA hRock ((register_mesh_handles mResolved ⟨[hRock]⟩).materials)
      = some none := by
  decide

/-- C4 (amended): resolution via `get_material_or_load` never moves any
`Resolved` entry back to `None` — every resolved entry keeps its data —
but `load`'s handle registration does overwrite resolved entries. -/
theorem C4_resolver_preserves_resolved (m : AssetManager)
    (h h2 : NewMaterialHandle) (d : NewMaterialData)
    (hres : findA h2 m.materials = some (some d)) :
    findA h2 ((get_material_or_load m h).2).materials = some (some d) := by
  by_cases heq : h2 = h
  · subst heq
    simp [get_material_or_load, hres]
  · cases hm : findA h m.materials with
    | none =>
      simp [get_material_or_load, hm, findA_insertA_ne h h2 _ heq, hres]
    | some o =>
      cases o with
      | none =>
        simp [get_material_or_load, hm, findA_insertA_self,
          findA_insertA_ne h h2 _ heq, hres]
      | some d2 =>
        simp [get_material_or_load, hm, hres]

/-- C4 (witness): resolving a different handle leaves the resolved `hRock`
entry intact. -/
theorem C4_witness :
    findA hRock ((get_material_or_load mResolved hMoss).2).materials
      = some (some dRock) :=
  C4_resolver_preserves_resolved mResolved hMoss hRock dRock (by decide)

/-- C5 (counterexample): the claim says the image cache contains "white"
from cache initialization onward.  `AssetManager::new` initializes every
map empty, so on a fresh manager "white" is absent and `get_image_or_white`
hits its fatal branch. -/
theorem C5_counterexample_white_absent_at_init :
    findA "white" (AssetManager.new "assets").images = none ∧
    (get_image_or_white (AssetManager.new "assets") "rock").1 = none := by
  decide

/-- C5 (amended): the cache starts empty — the fallback is not
pre-registered by initialization — and the fatal branch of
`get_image_or_white` fires exactly when "white" is absent, so it is
reachable in any state where no asset registered "white". -/
theorem C5_fatal_branch_iff_white_absent :
    (∀ path : String, (AssetManager.new path).images = []) ∧
    ∀ (m : AssetManager) (k : String),
      ((get_image_or_white m k).1 = none ↔ findA "white" m.images = none) := by
  refine ⟨fun path => rfl, fun m k => ?_⟩
  cases hw : findA "white" m.images <;> simp [get_image_or_white, hw]

/-- C6: for every `ImageFormat`, the decoded buffer of a width-by-height
image has `width * height * bytes_per_pixel(format)` bytes, and the row
stride used for the GPU copy is `width * bytes_per_pixel(format)`, with
bytes_per_pixel 4 for SRGB/RGB and 16 for HDR16/HDR32 (the decoder
invariants `pixels.length = width * height` are the hypotheses). -/
theorem C6_decoded_length_and_stride (b : ImageBuilder) (info : ImageInfo)
    (hrgba : b.rgba.pixels.length = b.rgba.width * b.rgba.height)
    (hhdr : b.hdr.pixels.length = b.hdr.meta.width * b.hdr.meta.height) :
    (b.decode_step info.format).1.length
      = (b.decode_step info.format).2.1 * (b.decode_step info.format).2.2
          * bytes_per_pixel info.format ∧
    (create_texture (b.decode_step info.format).2.1
        (b.decode_step info.format).2.2 (ImageFormat.into info.format)
        (b.decode_step info.format).1).bytes_per_row
      = (b.decode_step info.format).2.1 * bytes_per_pixel info.format := by
  obtain ⟨file, fmt⟩ := info
  cases fmt <;>
    constructor <;>
      simp [ImageBuilder.decode_step, create_texture, bytes_per_pixel,
        ImageFormat.into, rgba_image_bytes_length, hdr_image_bytes_length,
        hrgba, hhdr] <;>
      ring

/-- C6 (witness): the statement evaluated on the sample decoded inputs with
the RGB descriptor. -/
theorem C6_witness :
    (bSample.decode_step infoRGB.format).1.length
      = (bSample.decode_step infoRGB.format).2.1
          * (bSample.decode_step infoRGB.format).2.2
          * bytes_per_pixel infoRGB.format ∧
    (create_texture (bSample.decode_step infoRGB.format).2.1
        (bSample.decode_step infoRGB.format).2.2
        (ImageFormat.into infoRGB.format)
        (bSample.decode_step infoRGB.format).1).bytes_per_row
      = (bSample.decode_step infoRGB.format).2.1 * bytes_per_pixel infoRGB.format :=
  C6_decoded_length_and_stride bSample infoRGB (by decide) (by decide)

/-- C7: for either HDR format, the decode path takes its dimensions from
the container metadata, produces exactly 4 float channels per decoded pixel
— channel 4i, 4i+1, 4i+2 are pixel i's R, G, B and channel 4i+3 is the
constant alpha 1.0 — and emits 16 bytes per pixel. -/
theorem C7_hdr_expansion (fmt : ImageFormat) (b : ImageBuilder)
    (hf : fmt = ImageFormat.HDR16 ∨ fmt = ImageFormat.HDR32) :
    (b.decode_step fmt).2.1 = b.hdr.meta.width ∧
    (b.decode_step fmt).2.2 = b.hdr.meta.height ∧
    (hdr_image_data b.hdr.pixels).length = 4 * b.hdr.pixels.length ∧
    (b.decode_step fmt).1.length = 16 * b.hdr.pixels.length ∧
    ∀ i : Nat,
      (hdr_image_data b.hdr.pixels).get? (4 * i)
          = (b.hdr.pixels.get? i).map RgbF32.r ∧
      (hdr_image_data b.hdr.pixels).get? (4 * i + 1)
          = (b.hdr.pixels.get? i).map RgbF32.g ∧
      (hdr_image_data b.hdr.pixels).get? (4 * i + 2)
          = (b.hdr.pixels.get? i).map RgbF32.b ∧
      (hdr_image_data b.hdr.pixels).get? (4 * i + 3)
          = (b.hdr.pixels.get? i).map (fun _ => F32.one) := by
  rcases hf with rfl | rfl <;>
    exact ⟨rfl, rfl, hdr_image_data_length _, hdr_image_bytes_length _,
      fun i => ⟨hdr_get_r _ i, hdr_get_g _ i, hdr_get_b _ i, hdr_get_a _ i⟩⟩

/-- C7 (witness): the HDR32 path on the sample one-pixel HDR input: width
comes from the metadata and the fourth channel is the constant 1.0. -/
theorem C7_witness :
    (bSample.decode_step ImageFormat.HDR32).2.1 = bSample.hdr.meta.width ∧
    (hdr_image_data bSample.hdr.pixels).get? 3 = some F32.one :=
  ⟨(C7_hdr_expansion ImageFormat.HDR32 bSample (Or.inr rfl)).1,
   ((C7_hdr_expansion ImageFormat.HDR32 bSample (Or.inr rfl)).2.2.2.2 0).2.2.2⟩

/-- C8: a `.png` file whose lowercased name contains "_normal" produces a
cache entry whose GPU format is the linear `Rgba8Unorm`, which differs from
the default color format `Rgba8UnormSrgb`. -/
theorem C8_normal_png_uses_linear_format (name : String) (ext : Extent3d)
    (m : AssetManager)
    (h1 : strEndsWith name ".png" = true)
    (h2 : strContains (lowerStr name) "_normal" = true) :
    (findA name ((load_insert_image m name ext).images)).map Image.format
      = some TextureFormat.Rgba8Unorm ∧
    TextureFormat.Rgba8Unorm ≠ TextureFormat.Rgba8UnormSrgb := by
  refine ⟨?_, by decide⟩
  simp [load_insert_image, load_image_file, h1, h2, findA_insertA_self]

/-- C8 (witness): the statement evaluated on "rock_normal.png" loaded into
a fresh manager. -/
theorem C8_witness :
    (findA "rock_normal.png"
        ((load_insert_image (AssetManager.new "assets") "rock_normal.png"
          ⟨4, 4, 1⟩).images)).map Image.format
      = some TextureFormat.Rgba8Unorm ∧
    TextureFormat.Rgba8Unorm ≠ TextureFormat.Rgba8UnormSrgb :=
  C8_normal_png_uses_linear_format "rock_normal.png" ⟨4, 4, 1⟩
    (AssetManager.new "assets") (by decide) (by decide)

/-- C9: serializing any `ImageInfo` to the structured text declaration
format and deserializing the result yields the original record
field-for-field. -/
theorem C9_imageinfo_roundtrip (i : ImageInfo) :
    decodeImageInfo (encodeImageInfo i) = some i := by
  obtain ⟨f, fmt⟩ := i
  have h1 : encodeImageInfo ⟨f, fmt⟩
      = (("(file:").data ++ [quoteChar])
          ++ (escapeChars f.data
            ++ quoteChar :: ((",format:").data
              ++ ((formatName fmt).data ++ [')']))) := by
    simp [encodeImageInfo, List.append_assoc]
  simp only [decodeImageInfo, h1, dropPrefixL_append, scanStr_escape,
    parseFormatTail_name]

/-- C10: `get_image_or_white` borrows the manager immutably and leaves its
state entirely unchanged: every map (shaders, fonts, meshes, materials,
images) and every image-cache entry is exactly as before the call. -/
theorem C10_get_image_or_white_pure (m : AssetManager) (key : String) :
    (get_image_or_white m key).2 = m ∧
    (get_image_or_white m key).2.shaders = m.shaders ∧
    (get_image_or_white m key).2.fonts = m.fonts ∧
    (get_image_or_white m key).2.meshes = m.meshes ∧
    (get_image_or_white m key).2.materials = m.materials ∧
    (get_image_or_white m key).2.images = m.images ∧
    ∀ k2 : String,
      findA k2 (get_image_or_white m key).2.images = findA k2 m.images :=
  ⟨rfl, rfl, rfl, rfl, rfl, rfl, fun _ => rfl⟩
